import Mathlib

/-!
Shallow embedding of the vulnerability-database client of this repository
(`internal/vuln/client.go`) together with the matching / component-derivation
helpers exercised by `internal/vuln/vulns_test.go`.

The transport (`source`) is modelled as a record of the three endpoints the
client reads (`index/modules.json`, `index/vulns.json`, `ID/<id>.json`).
Each endpoint yields either a fetch error (`GetErr`, distinguishing a
not-found signal from other transport failures) or raw bytes; the bytes of a
document are modelled at the granularity the client consumes them, namely as
the outcome of JSON-decoding them (`Except String …`, the error case standing
for `json.Unmarshal` / stream-decoder failure).
-/

deriving instance DecidableEq for Except

namespace Vuln

/-! ### OSV data model (wire schema, §6 of the design) -/

namespace osv

structure RangeEvent where
  Introduced : String
  Fixed : String
deriving DecidableEq, Repr

structure Range where
  RangeType : String
  Events : List RangeEvent
deriving DecidableEq, Repr

/-- `osv.RangeTypeSemver`, the only matching-relevant range type. -/
def RangeTypeSemver : String := "SEMVER"

structure Module where
  Path : String
deriving DecidableEq, Repr

structure Package where
  Path : String
  Symbols : List String
deriving DecidableEq, Repr

structure EcosystemSpecific where
  Packages : List Package
deriving DecidableEq, Repr

structure Affected where
  Module : Module
  Ranges : List Range
  EcosystemSpecific : EcosystemSpecific
deriving DecidableEq, Repr

structure Entry where
  ID : String
  Affected : List Affected
deriving DecidableEq, Repr

end osv

/-! ### Index summaries (`ModuleMeta`, `VulnMeta` of `client.go`) -/

structure ModuleMetaVuln where
  ID : String
  Fixed : String
deriving DecidableEq, Repr

structure ModuleMeta where
  Path : String
  Vulns : List ModuleMetaVuln
deriving DecidableEq, Repr

structure VulnMeta where
  ID : String
  Aliases : List String
deriving DecidableEq, Repr

structure PackageRequest where
  Module : String
  Package : String
  Version : String
deriving DecidableEq, Repr

/-! ### Version comparison

`osv.LessSemver` / `osv.AffectsSemver` live in the repository's `osv` package,
which is not under `src/`; they are modelled from the spec (§4.1).  A version
string is canonicalised to a numeric key: a leading `v` is dropped, any
prerelease / build suffix is cut, and the dot-separated numeric components are
padded to three.  Keys of parseable versions are tagged `1 :: …` and compared
lexicographically; unparseable versions get the minimal key `[0]`.
-/

/-- Lexicographic strict order on numeric keys. -/
def natListLt : List Nat → List Nat → Bool
  | [], [] => false
  | [], _ :: _ => true
  | _ :: _, [] => false
  | a :: as, b :: bs => if a < b then true else if b < a then false else natListLt as bs

/-- Split a character list on `'.'`. -/
def splitOnDot : List Char → List (List Char)
  | [] => [[]]
  | c :: rest =>
    if c = '.' then [] :: splitOnDot rest
    else
      match splitOnDot rest with
      | [] => [[c]]
      | seg :: segs => (c :: seg) :: segs

/-- Parse a non-empty all-digit segment as a `Nat`. -/
def parseNatDigits (s : List Char) : Option Nat :=
  if s = [] then none
  else s.foldl (fun acc c => match acc with
    | none => none
    | some n => if c.isDigit then some (n * 10 + (c.toNat - 48)) else none) (some 0)

/-- Drop a leading `'v'`. -/
def dropV : List Char → List Char
  | 'v' :: rest => rest
  | s => s

/-- Cut the string at the first `'-'` or `'+'` (prerelease / build metadata). -/
def cutSuffix : List Char → List Char
  | [] => []
  | c :: rest => if c = '-' ∨ c = '+' then [] else c :: cutSuffix rest

/-- Pad a component list to exactly three entries with zeros. -/
def padTo3 (l : List Nat) : List Nat :=
  match l with
  | [a] => [a, 0, 0]
  | [a, b] => [a, b, 0]
  | [a, b, c] => [a, b, c]
  | _ => l

/-- Modelled from the spec: canonical numeric key of a semver-style version
string (the repository's `osv` package, which defines the semver comparison,
is not under `src/`).  Parseable versions are tagged `1 :: major :: minor ::
patch`; anything else collapses to the minimal key `[0]`. -/
def semKey (s : String) : List Nat :=
  let comps := splitOnDot (cutSuffix (dropV s.data))
  match comps.mapM parseNatDigits with
  | some ns => if ns.length = 0 ∨ 3 < ns.length then [0] else 1 :: padTo3 ns
  | none => [0]

namespace osv

/-- Modelled from the spec: `osv.LessSemver v w` — strict semver order on the
canonical keys (the `osv` package is not under `src/`). -/
def LessSemver (v w : String) : Bool := natListLt (semKey v) (semKey w)

end osv

/-! ### Range-pair collection and affectation (spec §4.1)

`collectRangePairs` and `osv.AffectsSemver` live in the repository's
`vulns.go` / `osv` package, which are not under `src/` (only
`vulns_test.go` is); they are modelled from the spec.
-/

structure pair where
  intro : String
  fixed : String
deriving DecidableEq, Repr

/-- Modelled from the spec: a semver-style version value gets a leading `v`
prepended if missing and non-empty. -/
def withV (s : String) : String :=
  if s ≠ "" ∧ ¬ s.data.take 1 = ['v'] then "v" ++ s else s

/-- Modelled from the spec: walk the events of one range in declaration
order, threading the current open lower bound.  An event's `Introduced`
value (normalised when the range is semver-style) replaces the current lower
bound; an event's `Fixed` value closes the pair `(lower, fixed)` and resets
the lower bound to the empty string.  Returns the emitted pairs together
with the lower bound left open at the end. -/
def walkEvents (isSemver : Bool) : String → List osv.RangeEvent → List pair × String
  | cur, [] => ([], cur)
  | cur, e :: rest =>
    let cur1 := if e.Introduced ≠ "" then
        (if isSemver then withV e.Introduced else e.Introduced) else cur
    if e.Fixed ≠ "" then
      let w := walkEvents isSemver "" rest
      (⟨cur1, if isSemver then withV e.Fixed else e.Fixed⟩ :: w.1, w.2)
    else walkEvents isSemver cur1 rest

/-- Modelled from the spec: walk all ranges in declaration order, carrying
the open lower bound across range boundaries; returns the emitted pairs and
the lower bound still open at the end. -/
def walkRanges (rs : List osv.Range) : List pair × String :=
  rs.foldl (fun (st : List pair × String) r =>
      let w := walkEvents (r.RangeType = osv.RangeTypeSemver) st.2 r.Events
      (st.1 ++ w.1, w.2)) ([], "")

/-- Modelled from the spec: collect the `(introduced, fixed)` interval pairs
of a list of ranges, in declaration order.  Values of semver-style ranges
are normalised with a leading `v`; ranges of an unrecognized type pass
through verbatim.  A lower bound never closed by a fix emits no pair here
(the display form); the matcher treats it as unbounded above. -/
def collectPairsRanges (rs : List osv.Range) : List pair :=
  (walkRanges rs).1

/-- Modelled from the spec: the interval pairs relevant for matching — as
`collectPairsRanges`, but an introduced version never followed by a fix
contributes a pair unbounded above ("affected for all versions ≥
introduced, no remediation published"). -/
def matchPairs (rs : List osv.Range) : List pair :=
  let w := walkRanges rs
  if w.2 ≠ "" then w.1 ++ [⟨w.2, ""⟩] else w.1

/-- Modelled from the spec: `collectRangePairs` of `vulns.go` (absent from
`src/`; its behaviour is pinned by `TestCollectRangePairs`). -/
def collectRangePairs (a : osv.Affected) : List pair :=
  collectPairsRanges a.Ranges

/-- Modelled from the spec: does the candidate version fall inside the
half-open interval of this pair?  An empty lower bound means "all versions
below fixed"; an empty fixed bound means "unbounded above". -/
def pairContains (p : pair) (v : String) : Bool :=
  (p.intro = "" ∨ ¬ osv.LessSemver v p.intro = true) ∧
    (p.fixed = "" ∨ osv.LessSemver v p.fixed = true)

namespace osv

/-- Modelled from the spec: `osv.AffectsSemver` — the version is affected if
it falls in at least one interval pair collected from the semver-style
ranges (the `osv` package is not under `src/`). -/
def AffectsSemver (ranges : List Range) (v : String) : Bool :=
  (Vuln.matchPairs (ranges.filter
      (fun r => r.RangeType = RangeTypeSemver))).any
    (fun p => Vuln.pairContains p v)

end osv

/-! ### Affected-component derivation (spec §4.3)

`AffectedComponents` lives in the repository's `vulns.go`, which is not
under `src/`; it is modelled from the spec, with `vulns_test.go` (which is
under `src/`) pinning its behaviour: version text is attached to package
components as `TestAffectedComponents_Versions` requires, and symbol
buckets preserve declaration order as `TestAffectedComponents` requires.
-/

/-- Does a character list start with an upper-case letter? -/
def headUpper : List Char → Bool
  | [] => false
  | c :: _ => c.isUpper

/-- Modelled from the spec's symbol-classification step, with the rule
corrected to what `TestAffectedComponents` (under `src/`) pins: a symbol
name is exported exactly when every dot-separated segment starts with an
upper-case letter (the test requires `"s.F"` to be unexported, so the
receiver segment does count). -/
def symbolExported (s : String) : Bool :=
  (splitOnDot s.data).all headUpper

/-- Does the string start with an upper-case letter? -/
def startsUpper (s : String) : Bool :=
  match s.data with
  | [] => false
  | c :: _ => c.isUpper

/-- First-occurrence deduplication. -/
def dedupKeepFirst (l : List String) : List String :=
  l.foldl (fun acc s => if s ∈ acc then acc else acc ++ [s]) []

/-- Modelled from the spec: the exported bucket of a symbol list, in
declaration order, deduplicated. -/
def exportedBucket (syms : List String) : List String :=
  dedupKeepFirst (syms.filter (fun s => symbolExported s))

/-- Modelled from the spec: the unexported bucket of a symbol list, in
declaration order, deduplicated. -/
def unexportedBucket (syms : List String) : List String :=
  dedupKeepFirst (syms.filter (fun s => ¬ symbolExported s))

/-- Modelled from the spec: render one interval pair as a clause — both
bounds `"from <lo> before <hi>"`, only an upper bound `"before <hi>"`, only
a lower bound `"from <lo>"`, no bounds at all nothing. -/
def pairClause (p : pair) : Option String :=
  if p.intro = "" ∧ p.fixed = "" then none
  else if p.intro = "" then some ("before " ++ p.fixed)
  else if p.fixed = "" then some ("from " ++ p.intro)
  else some ("from " ++ p.intro ++ " before " ++ p.fixed)

/-- Comma-join. -/
def joinComma : List String → String
  | [] => ""
  | [s] => s
  | s :: t :: rest => s ++ ", " ++ joinComma (t :: rest)

/-- Modelled from the spec: the human-readable version-range description of
a list of interval pairs, in collection order. -/
def versionsString (ps : List pair) : String :=
  joinComma (ps.filterMap pairClause)

/-- The output record of `AffectedComponents`. -/
structure AffectedComponent where
  Path : String
  Versions : String
  ExportedSymbols : List String
  UnexportedSymbols : List String
deriving DecidableEq, Repr

/-- Modelled from the spec: the components contributed by one affected
group — one module-level component if the group lists no packages,
otherwise one package-level component per listed package. -/
def componentsForAffected (a : osv.Affected) : List AffectedComponent × List AffectedComponent :=
  let versions := versionsString (collectRangePairs a)
  match a.EcosystemSpecific.Packages with
  | [] => ([], [⟨a.Module.Path, versions, [], []⟩])
  | ps => (ps.map (fun p => ⟨p.Path, versions, exportedBucket p.Symbols,
      unexportedBucket p.Symbols⟩), [])

/-- Modelled from the spec: `AffectedComponents` of `vulns.go` (absent from
`src/`; behaviour pinned by `TestAffectedComponents` and
`TestAffectedComponents_Versions`).  Returns the package-level components
and the module-level components, both in group / package declaration
order. -/
def AffectedComponents (e : osv.Entry) : List AffectedComponent × List AffectedComponent :=
  e.Affected.foldr (fun a acc =>
    let c := componentsForAffected a
    (c.1 ++ acc.1, c.2 ++ acc.2)) ([], [])

/-! ### Standard-library version handling (spec §4.1, `vulns.go`) -/

/-- Modelled from the spec: parse a toolchain release tag `go1.N[.M]` into
the equivalent semver string (`go1.19.3 ↦ v1.19.3`); any string that does
not have this shape yields `none`. -/
def goTagToSemver (s : String) : Option String :=
  match s.data with
  | 'g' :: 'o' :: rest =>
    (match (splitOnDot rest).mapM parseNatDigits with
     | some ns => if ns.length = 0 ∨ 3 < ns.length then none
                  else some (String.mk ('v' :: rest))
     | none => none)
  | _ => none

/-- Modelled from the spec: the affectation decision for the
standard-library pseudo-module (`vulns.go`, absent from `src/`): the
version must parse as a toolchain release, and is then compared under the
toolchain-release ordering against the declared ranges; a version that does
not parse is treated as not affected (fail closed). -/
def stdlibAffects (ranges : List osv.Range) (version : String) : Bool :=
  match goTagToSemver version with
  | none => false
  | some v => osv.AffectsSemver ranges v

/-! ### The client (`client.go`) -/

/-- Error signal of the underlying `source.get`: a dedicated not-found
condition is distinguishable from other transport failures. -/
inductive GetErr where
  | notFound
  | transport (msg : String)
deriving DecidableEq, Repr

/-- Client-level errors: a propagated fetch error, a JSON decode failure, or
the `"vulnerability %s was found in %s but could not be retrieved"` error of
`ByPackage`. -/
inductive VulnErr where
  | get (e : GetErr)
  | decode (msg : String)
  | missing (id : String)
deriving DecidableEq, Repr

/-- The transport, modelled at the three endpoints `client.go` reads.  The
outer `Except GetErr` is the fetch; the inner `Except String` is the outcome
of JSON-decoding the fetched bytes (`json.Unmarshal` / the stream decoder). -/
structure Source where
  modules : Except GetErr (Except String (List ModuleMeta))
  vulns : Except GetErr (Except String (List VulnMeta))
  entry : String → Except GetErr (Except String osv.Entry)

namespace Client

/-- `Client.ByID` (`client.go:168`): any fetch error is swallowed into
`(nil, nil)` (the code assumes `entry` only fails when the entry is not
found); an unmarshal failure of fetched bytes is an error. -/
def ByID (src : Source) (id : String) : Except VulnErr (Option osv.Entry) :=
  match src.entry id with
  | .error _ => .ok none
  | .ok (.error msg) => .error (.decode msg)
  | .ok (.ok e) => .ok (some e)

/-- The candidate-collection loop of `ByPackage` (`client.go:77-96`): scan
the decoded module index for the first entry whose path equals the requested
module, and keep the IDs whose recorded fix is absent or semver-after the
requested version; later index entries are never scanned. -/
def byPackageCandidates (metas : List ModuleMeta) (req : PackageRequest) : List String :=
  match metas with
  | [] => []
  | m :: rest =>
    if m.Path = req.Module then
      (m.Vulns.filter (fun v => v.Fixed = "" ∨ osv.LessSemver req.Version v.Fixed = true)).map
        (fun v => v.ID)
    else byPackageCandidates rest req

/-- `isAffected` (`client.go:140`). -/
def isAffected (e : osv.Entry) (req : PackageRequest) : Bool :=
  e.Affected.any (fun a =>
    (a.Module.Path = req.Module ∧ osv.AffectsSemver a.Ranges req.Version = true) ∧
      (req.Package = "" ∨ a.EcosystemSpecific.Packages.length = 0 ∨
        a.EcosystemSpecific.Packages.any (fun p => req.Package = p.Path) = true))

/-- The fetch-and-filter loop of `ByPackage` (`client.go:102-131`): fetch
every candidate through `ByID`; a fetch that yields no record at all is the
data-inconsistency error; records passing `isAffected` are kept.  The Go
code runs the fetches in an errgroup bounded at 10 and accumulates under a
mutex; the embedding fetches sequentially in candidate order, which the
final sort makes observationally equivalent. -/
def fetchFiltered (src : Source) (req : PackageRequest) : List String → Except VulnErr (List osv.Entry)
  | [] => .ok []
  | id :: rest =>
    match ByID src id with
    | .error e => .error e
    | .ok none => .error (.missing id)
    | .ok (some e) =>
      match fetchFiltered src req rest with
      | .error err => .error err
      | .ok es => .ok (if isAffected e req then e :: es else es)

/-- Character-wise lexicographic `≤` on strings (Go compares strings
byte-wise; vulnerability IDs are ASCII). -/
def charListLe : List Char → List Char → Bool
  | [], _ => true
  | _ :: _, [] => false
  | a :: as, b :: bs =>
    if a.toNat < b.toNat then true
    else if b.toNat < a.toNat then false
    else charListLe as bs

/-- The order `sort.SliceStable` establishes in `ByPackage` (`client.go:133`):
ascending vulnerability ID. -/
def entryLe (a b : osv.Entry) : Prop := charListLe a.ID.data b.ID.data = true

instance : DecidableRel entryLe := fun a b =>
  inferInstanceAs (Decidable (charListLe a.ID.data b.ID.data = true))

/-- Does the record served for `id` (if any) carry `id` as its own ID?
(`true` as well when the endpoint fails — only served records are
constrained). -/
def entryIDok (src : Source) (id : String) : Bool :=
  match src.entry id with
  | .ok (.ok e) => e.ID = id
  | _ => true

/-- `Client.ByPackage` (`client.go:64`). -/
def ByPackage (src : Source) (req : PackageRequest) : Except VulnErr (List osv.Entry) :=
  match src.modules with
  | .error e => .error (.get e)
  | .ok (.error msg) => .error (.decode msg)
  | .ok (.ok metas) =>
    let ids := byPackageCandidates metas req
    if ids.isEmpty then .ok []
    else
      match fetchFiltered src req ids with
      | .error e => .error e
      | .ok entries => .ok (entries.insertionSort entryLe)

/-- `Client.ids` (`client.go:248`): the IDs of the global index, in index
order. -/
def ids (src : Source) : Except VulnErr (List String) :=
  match src.vulns with
  | .error e => .error (.get e)
  | .ok (.error msg) => .error (.decode msg)
  | .ok (.ok vms) => .ok (vms.map (fun v => v.ID))

/-- The per-ID loop of `Entries` (`client.go:229-242`): slot `i` receives
whatever `ByID` returned for ID `i` (possibly `none`); a `ByID` error aborts
the whole call. -/
def entriesLoop (src : Source) : List String → Except VulnErr (List (Option osv.Entry))
  | [] => .ok []
  | id :: rest =>
    match ByID src id with
    | .error e => .error e
    | .ok r =>
      match entriesLoop src rest with
      | .error e => .error e
      | .ok rs => .ok (r :: rs)

/-- `Client.Entries` (`client.go:218`). -/
def Entries (src : Source) : Except VulnErr (List (Option osv.Entry)) :=
  match ids src with
  | .error e => .error e
  | .ok l => entriesLoop src l

end Client

/-- The index scan of `ByPackage` (`client.go:78-95`) locates the first
decoded `ModuleMeta` whose path equals the requested module, if any. -/
def moduleEntry (metas : List ModuleMeta) (mod : String) : Option ModuleMeta :=
  match metas with
  | [] => none
  | m :: rest => if m.Path = mod then some m else moduleEntry rest mod

/-- The data invariant under which the coarse pre-filter is complete: when
the index records a non-empty fixed version `f` for a vulnerability under
module `mod` ("the vuln's highest fixed version", `client.go:86-88`), every
matching-module semver interval of the full record is bounded above closed
by a fix that is at most `f` under the semver order. -/
def IndexFixedConsistent (e : osv.Entry) (mod f : String) : Prop :=
  f ≠ "" → ∀ a ∈ e.Affected, a.Module.Path = mod →
    ∀ p ∈ matchPairs (a.Ranges.filter (fun r => r.RangeType = osv.RangeTypeSemver)),
      p.fixed ≠ "" ∧ natListLt (semKey f) (semKey p.fixed) = false

instance (e : osv.Entry) (mod f : String) : Decidable (IndexFixedConsistent e mod f) := by
  unfold IndexFixedConsistent
  infer_instance

end Vuln


namespace Vuln

/-! ### Concrete fixtures (the entries of `vulns_test.go`) -/

/-- The entry `GO-1999-0001` of `TestVulnsForPackage`. -/
def entry1 : osv.Entry :=
  { ID := "GO-1999-0001"
    Affected :=
      [{ Module := ⟨"bad.com"⟩
         Ranges := [⟨osv.RangeTypeSemver, [⟨"0", ""⟩, ⟨"", "1.2.3"⟩]⟩]
         EcosystemSpecific := ⟨[⟨"bad.com", []⟩, ⟨"bad.com/bad", []⟩]⟩ },
       { Module := ⟨"unfixable.com"⟩
         Ranges := [⟨osv.RangeTypeSemver, [⟨"0", ""⟩]⟩]
         EcosystemSpecific := ⟨[⟨"unfixable.com", []⟩]⟩ }] }

/-- The entry `GO-1999-0002` of `TestVulnsForPackage`. -/
def entry2 : osv.Entry :=
  { ID := "GO-1999-0002"
    Affected :=
      [{ Module := ⟨"bad.com"⟩
         Ranges := [⟨osv.RangeTypeSemver, [⟨"0", ""⟩, ⟨"", "1.2.0"⟩]⟩]
         EcosystemSpecific := ⟨[⟨"bad.com/pkg", []⟩]⟩ }] }

/-- An in-memory source holding `entry1` and `entry2`, with the module index
an in-memory database would generate for them. -/
def testSource : Source :=
  { modules := .ok (.ok
      [⟨"bad.com", [⟨"GO-1999-0001", "1.2.3"⟩, ⟨"GO-1999-0002", "1.2.0"⟩]⟩,
       ⟨"unfixable.com", [⟨"GO-1999-0001", ""⟩]⟩])
    vulns := .ok (.ok [⟨"GO-1999-0001", []⟩, ⟨"GO-1999-0002", []⟩])
    entry := fun id =>
      if id = "GO-1999-0001" then .ok (.ok entry1)
      else if id = "GO-1999-0002" then .ok (.ok entry2)
      else .error .notFound }

/-- A source whose record endpoint always fails with a transport error but
whose indexes are fine; the global index names one ID. -/
def transportDownEntries : Source :=
  { modules := .ok (.ok [⟨"bad.com", [⟨"GO-1999-0001", ""⟩]⟩])
    vulns := .ok (.ok [⟨"GO-1999-0001", []⟩])
    entry := fun _ => .error (.transport "connection refused") }

/-- A source whose every endpoint fails with a transport error. -/
def downSource : Source :=
  { modules := .error (.transport "connection refused")
    vulns := .error (.transport "connection refused")
    entry := fun _ => .error (.transport "connection refused") }

/-- A source whose module index lists the same vulnerability ID twice under
one module (the index's at-most-once assumption violated), with the record
available. -/
def dupIDSource : Source :=
  { modules := .ok (.ok [⟨"bad.com", [⟨"GO-1999-0001", ""⟩, ⟨"GO-1999-0001", ""⟩]⟩])
    vulns := .ok (.ok [⟨"GO-1999-0001", []⟩])
    entry := fun id =>
      if id = "GO-1999-0001" then .ok (.ok entry1) else .error .notFound }

/-- The ranges of the stdlib entry `GO-2000-0003` of `TestVulnsForPackage`:
introduced at the beginning, fixed at toolchain release `1.19.4`. -/
def stdlibRanges : List osv.Range :=
  [⟨osv.RangeTypeSemver, [⟨"0", ""⟩, ⟨"", "1.19.4"⟩]⟩]

end Vuln


namespace Vuln

/-! ### Helper lemmas -/

/-- When no index entry carries the requested module path, the candidate
list is empty. -/
theorem byPackageCandidates_eq_nil (metas : List ModuleMeta) (req : PackageRequest)
    (h : ∀ m ∈ metas, m.Path ≠ req.Module) :
    Client.byPackageCandidates metas req = [] := by
  induction metas with
  | nil => rfl
  | cons m rest ih =>
    simp only [Client.byPackageCandidates]
    rw [if_neg (h m (List.mem_cons_self m rest))]
    exact ih fun x hx => h x (List.mem_cons_of_mem m hx)

/-- Shape of a successful `entriesLoop`: one slot per ID, in order, each the
`ByID` result for that ID. -/
theorem entriesLoop_ok (src : Source) :
    ∀ (l : List String) (r : List (Option osv.Entry)),
      Client.entriesLoop src l = .ok r →
      r.length = l.length ∧ ∀ i (hi : i < l.length) (hi' : i < r.length),
        Client.ByID src l[i] = .ok r[i]
  | [], r, h => by
    simp only [Client.entriesLoop] at h
    cases h
    exact ⟨rfl, fun i hi _ => absurd hi (by simp)⟩
  | id :: rest, r, h => by
    simp only [Client.entriesLoop] at h
    cases hby : Client.ByID src id with
    | error e => rw [hby] at h; cases h
    | ok v =>
      rw [hby] at h
      cases hrec : Client.entriesLoop src rest with
      | error e => rw [hrec] at h; cases h
      | ok rs =>
        rw [hrec] at h
        cases h
        obtain ⟨hlen, htail⟩ := entriesLoop_ok src rest rs hrec
        refine ⟨by simp [hlen], fun i hi hi' => ?_⟩
        cases i with
        | zero => simpa using hby
        | succ j =>
          have hj : j < rest.length := by simpa using hi
          have hj' : j < rs.length := by simpa using hi'
          simpa using htail j hj hj'

/-! ### Claims C1, C2, C4 -/

/-- C1 counterexample: the underlying fetch fails with a transport error
that is not a not-found signal, yet `ByID` returns `(nil, nil)` instead of
surfacing the failure. -/
theorem byID_transport_counterexample :
    transportDownEntries.entry "GO-1999-0001" = .error (.transport "connection refused") ∧
    Client.ByID transportDownEntries "GO-1999-0001" = .ok none :=
  ⟨rfl, rfl⟩

/-- C1 (amended): `ByID` returns `(nil, nil)` on every underlying fetch
failure — the not-found signal and transport failures alike — without
attempting to parse the record bytes; only an unmarshal failure of
successfully fetched bytes is surfaced as an error. -/
theorem byID_fetch_error_ok_none (src : Source) (id : String) (e : GetErr)
    (h : src.entry id = .error e) : Client.ByID src id = .ok none := by
  unfold Client.ByID
  rw [h]

/-- C1 witness: the amended theorem at the concrete transport-failing
source. -/
theorem byID_fetch_error_ok_none_witness :
    Client.ByID transportDownEntries "GO-1999-0001" = .ok none :=
  byID_fetch_error_ok_none transportDownEntries "GO-1999-0001"
    (.transport "connection refused") rfl

/-- C2 counterexample: the global index names `GO-1999-0001`, that record's
fetch fails with a transport error, yet `Entries` succeeds with a `nil`
slot instead of returning an error. -/
theorem entries_fetch_failure_counterexample :
    Client.ids transportDownEntries = .ok ["GO-1999-0001"] ∧
    transportDownEntries.entry "GO-1999-0001" = .error (.transport "connection refused") ∧
    Client.Entries transportDownEntries = .ok [none] :=
  ⟨rfl, rfl, rfl⟩

/-- C2 (amended): a successful `Entries` call returns exactly one slot per
ID named in the global index, in the index's order, slot `i` being the
`ByID` outcome for ID `i` (so a fetch failure yields a `nil` slot rather
than aborting; only a `ByID` error — an unmarshal failure — aborts the
whole call). -/
theorem entries_slots_amended (src : Source) (idl : List String)
    (res : List (Option osv.Entry))
    (hids : Client.ids src = .ok idl) (hres : Client.Entries src = .ok res) :
    res.length = idl.length ∧
    ∀ i (hi : i < idl.length) (hi' : i < res.length),
      Client.ByID src idl[i] = .ok res[i] := by
  have h : Client.entriesLoop src idl = .ok res := by
    unfold Client.Entries at hres
    rw [hids] at hres
    exact hres
  exact entriesLoop_ok src idl res h

/-- C2 witness: the amended theorem at the in-memory test source. -/
theorem entries_slots_amended_witness :
    (Client.Entries testSource = .ok [some entry1, some entry2]) ∧
    [some entry1, some entry2].length = ["GO-1999-0001", "GO-1999-0002"].length := by
  refine ⟨by decide, ?_⟩
  exact (entries_slots_amended testSource ["GO-1999-0001", "GO-1999-0002"]
    [some entry1, some entry2] (by decide) (by decide)).1

/-- C4 counterexample: a request whose `Module` is the empty string, issued
against a source whose module-index fetch fails, makes `ByPackage` return a
transport error — it neither fails fast nor guarantees an empty, error-free
result regardless of the source's state. -/
theorem byPackage_empty_module_counterexample :
    (⟨"", "p", "v1.0.0"⟩ : PackageRequest).Module = "" ∧
    Client.ByPackage downSource ⟨"", "p", "v1.0.0"⟩ =
      .error (.get (.transport "connection refused")) :=
  ⟨rfl, rfl⟩

/-- C4 (amended): `ByPackage` has no fail-fast check for an empty `Module`;
it still fetches and stream-decodes the module index.  When that succeeds
and the index (as in any real feed) lists no entry with an empty module
path, a request with empty `Module` ends with an empty result and no
error. -/
theorem byPackage_empty_module_amended (src : Source) (metas : List ModuleMeta)
    (req : PackageRequest) (hmod : req.Module = "")
    (hm : src.modules = .ok (.ok metas)) (hne : ∀ m ∈ metas, m.Path ≠ "") :
    Client.ByPackage src req = .ok [] := by
  have hids : Client.byPackageCandidates metas req = [] :=
    byPackageCandidates_eq_nil metas req fun m hmem => by
      rw [hmod]; exact hne m hmem
  unfold Client.ByPackage
  rw [hm]
  simp [hids]

/-- C4 witness: the amended theorem at the in-memory test source. -/
theorem byPackage_empty_module_amended_witness :
    Client.ByPackage testSource ⟨"", "p", "v1.0.0"⟩ = .ok [] :=
  byPackage_empty_module_amended testSource _ ⟨"", "p", "v1.0.0"⟩ rfl rfl (by decide)

end Vuln

namespace Vuln

/-- `fetchFiltered` reads only the `entry` endpoint of the source. -/
theorem fetchFiltered_entry_only (a b : Except GetErr (Except String (List ModuleMeta)))
    (c d : Except GetErr (Except String (List VulnMeta)))
    (f : String → Except GetErr (Except String osv.Entry)) (req : PackageRequest) :
    ∀ l, Client.fetchFiltered ⟨a, c, f⟩ req l = Client.fetchFiltered ⟨b, d, f⟩ req l
  | [] => rfl
  | id :: rest => by
    simp only [Client.fetchFiltered]
    rw [fetchFiltered_entry_only a b c d f req rest]
    rfl

/-- The candidate loop ignores everything after the first index entry whose
path is the requested module. -/
theorem byPackageCandidates_first (pre : List ModuleMeta) (m : ModuleMeta)
    (rest : List ModuleMeta) (req : PackageRequest)
    (hpre : ∀ x ∈ pre, x.Path ≠ req.Module) (hm : m.Path = req.Module) :
    Client.byPackageCandidates (pre ++ m :: rest) req =
    Client.byPackageCandidates [m] req := by
  induction pre with
  | nil => simp [Client.byPackageCandidates, hm]
  | cons x xs ih =>
    simp only [List.cons_append, Client.byPackageCandidates]
    rw [if_neg (hpre x (List.mem_cons_self x xs))]
    exact ih fun y hy => hpre y (List.mem_cons_of_mem x hy)

/-- C5: a fetched record passes `isAffected` exactly when some affected
group matches the requested module, its ranges affirm the requested
version, and the package condition holds (no package filter, or no package
list in the group, or the requested package is listed); a record whose
matching-module groups list only sibling packages is excluded. -/
theorem isAffected_iff (e : osv.Entry) (req : PackageRequest) :
    Client.isAffected e req = true ↔
      ∃ a ∈ e.Affected, a.Module.Path = req.Module ∧
        osv.AffectsSemver a.Ranges req.Version = true ∧
        (req.Package = "" ∨ a.EcosystemSpecific.Packages = [] ∨
          ∃ p ∈ a.EcosystemSpecific.Packages, p.Path = req.Package) := by
  unfold Client.isAffected
  simp only [List.any_eq_true, decide_eq_true_eq, List.length_eq_zero]
  constructor
  · rintro ⟨a, ha, ⟨hpath, hsem⟩, hpkg⟩
    refine ⟨a, ha, hpath, hsem, ?_⟩
    rcases hpkg with h | h | h
    · exact Or.inl h
    · exact Or.inr (Or.inl h)
    · rcases h with ⟨p, hp, hpp⟩
      exact Or.inr (Or.inr ⟨p, hp, hpp.symm⟩)
  · rintro ⟨a, ha, hpath, hsem, hpkg⟩
    refine ⟨a, ha, ⟨hpath, hsem⟩, ?_⟩
    rcases hpkg with h | h | ⟨p, hp, hpp⟩
    · exact Or.inl h
    · exact Or.inr (Or.inl h)
    · exact Or.inr (Or.inr ⟨p, hp, hpp.symm⟩)

/-- C10: `ByPackage` stops scanning the module index at the first entry
whose path equals the requested module — with the same record endpoint, an
index continuing after that entry (including a duplicate of the same module
path) produces exactly the same outcome as the index cut off right there.
Vulnerability IDs listed only under later entries are never fetched and
never appear in the result. -/
theorem byPackage_first_module_entry
    (mods1 mods2 : Except GetErr (Except String (List ModuleMeta)))
    (vdoc1 vdoc2 : Except GetErr (Except String (List VulnMeta)))
    (f : String → Except GetErr (Except String osv.Entry))
    (pre : List ModuleMeta) (m : ModuleMeta) (rest : List ModuleMeta)
    (req : PackageRequest)
    (h1 : mods1 = .ok (.ok (pre ++ m :: rest))) (h2 : mods2 = .ok (.ok [m]))
    (hpre : ∀ x ∈ pre, x.Path ≠ req.Module) (hm : m.Path = req.Module) :
    Client.ByPackage ⟨mods1, vdoc1, f⟩ req = Client.ByPackage ⟨mods2, vdoc2, f⟩ req := by
  subst h1 h2
  unfold Client.ByPackage
  simp only
  rw [byPackageCandidates_first pre m rest req hpre hm,
    fetchFiltered_entry_only (.ok (.ok (pre ++ m :: rest))) (.ok (.ok [m])) vdoc1 vdoc2 f req]

/-- C10 witness: an index that lists `bad.com` twice (the second entry
naming `GO-1999-0002`, which only it carries) behaves exactly like the
index truncated at the first `bad.com` entry; `GO-1999-0002` never shows
up. -/
theorem byPackage_first_module_entry_witness :
    Client.ByPackage ⟨.ok (.ok [⟨"other.com", [⟨"GO-1999-0009", ""⟩]⟩,
        ⟨"bad.com", [⟨"GO-1999-0001", ""⟩]⟩,
        ⟨"bad.com", [⟨"GO-1999-0002", ""⟩]⟩]), .ok (.ok []), testSource.entry⟩
      ⟨"bad.com", "", "v1.0.0"⟩ =
    Client.ByPackage ⟨.ok (.ok [⟨"bad.com", [⟨"GO-1999-0001", ""⟩]⟩]),
        .ok (.ok []), testSource.entry⟩ ⟨"bad.com", "", "v1.0.0"⟩ :=
  byPackage_first_module_entry _ _ _ _ testSource.entry
    [⟨"other.com", [⟨"GO-1999-0009", ""⟩]⟩] ⟨"bad.com", [⟨"GO-1999-0001", ""⟩]⟩
    [⟨"bad.com", [⟨"GO-1999-0002", ""⟩]⟩] ⟨"bad.com", "", "v1.0.0"⟩
    rfl rfl (by decide) rfl

end Vuln

namespace Vuln

/-! ### Order lemmas for the result sort -/

theorem charListLe_total : ∀ a b : List Char,
    Client.charListLe a b = true ∨ Client.charListLe b a = true
  | [], _ => Or.inl rfl
  | _ :: _, [] => Or.inr rfl
  | a :: as, b :: bs => by
    simp only [Client.charListLe]
    rcases Nat.lt_trichotomy a.toNat b.toNat with h | h | h
    · left; rw [if_pos h]
    · rw [if_neg (by omega), if_neg (by omega), if_neg (by omega), if_neg (by omega)]
      exact charListLe_total as bs
    · right; rw [if_pos h]

theorem charListLe_trans : ∀ a b c : List Char,
    Client.charListLe a b = true → Client.charListLe b c = true →
    Client.charListLe a c = true
  | [], _, _, _, _ => rfl
  | _ :: _, [], _, h, _ => by cases h
  | _ :: _, _ :: _, [], _, h => by cases h
  | a :: as, b :: bs, c :: cs, h1, h2 => by
    simp only [Client.charListLe] at h1 h2 ⊢
    by_cases hab : a.toNat < b.toNat
    · rw [if_pos hab] at h1
      by_cases hbc : b.toNat < c.toNat
      · rw [if_pos (by omega : a.toNat < c.toNat)]
      · rw [if_neg hbc] at h2
        by_cases hcb : c.toNat < b.toNat
        · rw [if_pos hcb] at h2; cases h2
        · rw [if_pos (by omega : a.toNat < c.toNat)]
    · rw [if_neg hab] at h1
      by_cases hba : b.toNat < a.toNat
      · rw [if_pos hba] at h1; cases h1
      · rw [if_neg hba] at h1
        by_cases hbc : b.toNat < c.toNat
        · rw [if_pos (by omega : a.toNat < c.toNat)]
        · rw [if_neg hbc] at h2
          by_cases hcb : c.toNat < b.toNat
          · rw [if_pos hcb] at h2; cases h2
          · rw [if_neg hcb] at h2
            rw [if_neg (by omega : ¬ a.toNat < c.toNat),
              if_neg (by omega : ¬ c.toNat < a.toNat)]
            exact charListLe_trans as bs cs h1 h2

instance : IsTotal osv.Entry Client.entryLe :=
  ⟨fun a b => charListLe_total a.ID.data b.ID.data⟩

instance : IsTrans osv.Entry Client.entryLe :=
  ⟨fun a b c => charListLe_trans a.ID.data b.ID.data c.ID.data⟩

end Vuln


namespace Vuln

/-- Inversion of a successful `ByID`: the record came from the entry
endpoint. -/
theorem byID_ok_some (src : Source) (id : String) (e : osv.Entry)
    (h : Client.ByID src id = .ok (some e)) : src.entry id = .ok (.ok e) := by
  unfold Client.ByID at h
  cases hsrc : src.entry id with
  | error g => rw [hsrc] at h; cases h
  | ok blob =>
    cases blob with
    | error msg => rw [hsrc] at h; cases h
    | ok e' => rw [hsrc] at h; cases h; rfl

/-- The IDs of a successful `fetchFiltered` result form a sublist of the
candidate IDs, provided every record the source serves carries the ID it
was fetched under. -/
theorem fetchFiltered_ids_sublist (src : Source) (req : PackageRequest) :
    ∀ (l : List String) (res : List osv.Entry),
      (∀ id ∈ l, Client.entryIDok src id = true) →
      Client.fetchFiltered src req l = .ok res →
      List.Sublist (res.map (fun e => e.ID)) l
  | [], res, _, h => by
    simp only [Client.fetchFiltered] at h
    cases h
    simp
  | id :: rest, res, hok, h => by
    simp only [Client.fetchFiltered] at h
    cases hby : Client.ByID src id with
    | error g => rw [hby] at h; cases h
    | ok v =>
      rw [hby] at h
      cases v with
      | none => cases h
      | some e =>
        cases hrec : Client.fetchFiltered src req rest with
        | error g => rw [hrec] at h; cases h
        | ok es =>
          rw [hrec] at h
          cases h
          have hid : e.ID = id := by
            have hsrc := byID_ok_some src id e hby
            have h1 := hok id (List.mem_cons_self id rest)
            unfold Client.entryIDok at h1
            rw [hsrc] at h1
            exact of_decide_eq_true h1
          have htail : List.Sublist (es.map (fun e => e.ID)) rest :=
            fetchFiltered_ids_sublist src req rest es
              (fun x hx => hok x (List.mem_cons_of_mem id hx)) hrec
          by_cases haff : Client.isAffected e req = true
          · rw [if_pos haff]
            simpa [hid] using htail.cons₂ id
          · rw [if_neg haff]
            exact htail.cons id

/-- C7 counterexample: a module index that lists `GO-1999-0001` twice under
`bad.com` makes `ByPackage` fetch and keep the record twice — the returned
list contains a duplicate record. -/
theorem byPackage_duplicate_counterexample :
    Client.ByPackage dupIDSource ⟨"bad.com", "", "v1.0.0"⟩ = .ok [entry1, entry1] ∧
    ¬ ([entry1, entry1] : List osv.Entry).Nodup := by
  constructor
  · decide
  · decide

/-- C7 (amended): a successful `ByPackage` result is always stably sorted
by vulnerability ID ascending; `ByPackage` performs no deduplication, so
freedom from duplicate records holds only under the index's at-most-once
assumption — when the module's candidate IDs are pairwise distinct and
every served record carries the ID it was fetched under, the result has no
duplicate records. -/
theorem byPackage_sorted_amended (src : Source) (req : PackageRequest)
    (metas : List ModuleMeta) (res : List osv.Entry)
    (hm : src.modules = .ok (.ok metas))
    (hres : Client.ByPackage src req = .ok res) :
    List.Sorted Client.entryLe res ∧
    ((Client.byPackageCandidates metas req).Nodup →
     (∀ id ∈ Client.byPackageCandidates metas req, Client.entryIDok src id = true) →
     res.Nodup) := by
  unfold Client.ByPackage at hres
  rw [hm] at hres
  simp only at hres
  by_cases hemp : (Client.byPackageCandidates metas req).isEmpty = true
  · rw [if_pos hemp] at hres
    cases hres
    exact ⟨List.sorted_nil, fun _ _ => List.nodup_nil⟩
  · rw [if_neg hemp] at hres
    cases hf : Client.fetchFiltered src req (Client.byPackageCandidates metas req) with
    | error g => rw [hf] at hres; cases hres
    | ok entries =>
      rw [hf] at hres
      cases hres
      refine ⟨List.sorted_insertionSort Client.entryLe entries, fun hnd hok => ?_⟩
      have hsub : List.Sublist (entries.map (fun e => e.ID)) (Client.byPackageCandidates metas req) :=
        fetchFiltered_ids_sublist src req _ entries hok hf
      have hnd2 : (entries.map (fun e => e.ID)).Nodup := hsub.nodup hnd
      have hnd3 : entries.Nodup := hnd2.of_map _
      exact (List.perm_insertionSort Client.entryLe entries).symm.nodup hnd3

/-- C7 witness: the amended theorem at the in-memory test source — the
module-only query returns `[entry1, entry2]`, sorted by ID and without
duplicates. -/
theorem byPackage_sorted_amended_witness :
    (Client.ByPackage testSource ⟨"bad.com", "", "v1.0.0"⟩ = .ok [entry1, entry2]) ∧
    List.Sorted Client.entryLe [entry1, entry2] ∧ ([entry1, entry2] : List osv.Entry).Nodup := by
  have h := byPackage_sorted_amended testSource ⟨"bad.com", "", "v1.0.0"⟩
    [⟨"bad.com", [⟨"GO-1999-0001", "1.2.3"⟩, ⟨"GO-1999-0002", "1.2.0"⟩]⟩,
     ⟨"unfixable.com", [⟨"GO-1999-0001", ""⟩]⟩]
    [entry1, entry2] rfl (by decide)
  exact ⟨by decide, h.1, h.2 (by decide) (by decide)⟩

end Vuln

namespace Vuln

/-! ### Symbol classification lemmas (claim C3) -/

/-- An entry with a single affected group carrying one package with one
symbol. -/
def symEntry (modPath pkgPath sym : String) : osv.Entry :=
  ⟨"GO-2022-0000", [⟨⟨modPath⟩, [], ⟨[⟨pkgPath, [sym]⟩]⟩⟩]⟩

theorem splitOnDot_no_dot : ∀ s : List Char, '.' ∉ s → splitOnDot s = [s]
  | [], _ => rfl
  | c :: rest, h => by
    have hc : ¬ c = '.' := fun he => h (he ▸ List.mem_cons_self c rest)
    have hr : '.' ∉ rest := fun hm => h (List.mem_cons_of_mem c hm)
    simp only [splitOnDot]
    rw [if_neg hc, splitOnDot_no_dot rest hr]

theorem splitOnDot_append_dot : ∀ (xs rest : List Char), '.' ∉ xs →
    splitOnDot (xs ++ '.' :: rest) = xs :: splitOnDot rest
  | [], rest, _ => by simp [splitOnDot]
  | c :: cs, rest, h => by
    have hc : ¬ c = '.' := fun he => h (he ▸ List.mem_cons_self c cs)
    have hcs : '.' ∉ cs := fun hm => h (List.mem_cons_of_mem c hm)
    simp only [List.cons_append, splitOnDot]
    rw [if_neg hc]
    simp only [List.append_eq]
    rw [splitOnDot_append_dot cs rest hcs]

/-- The classification of a dotted symbol checks both segments. -/
theorem symbolExported_dotted (recv method : String)
    (hr : '.' ∉ recv.data) (hm : '.' ∉ method.data) :
    symbolExported (recv ++ "." ++ method) =
      (headUpper recv.data && headUpper method.data) := by
  unfold symbolExported
  have hdot : ".".data = ['.'] := rfl
  have hdata : (recv ++ "." ++ method).data = recv.data ++ '.' :: method.data := by
    rw [String.data_append, String.data_append, hdot]
    simp
  rw [hdata, splitOnDot_append_dot recv.data method.data hr,
    splitOnDot_no_dot method.data hm]
  simp [List.all]

/-- C3 counterexample: in `TestAffectedComponents`'s own data, the symbol
`"s.F"` has a trailing method segment starting with an upper-case letter,
yet `AffectedComponents` classifies it as unexported — the receiver
segment's capitalization does play a role. -/
theorem affectedComponents_receiver_counterexample :
    AffectedComponents (symEntry "example.com/mod" "example.com/mod/pkg" "s.F") =
      ([⟨"example.com/mod/pkg", "", [], ["s.F"]⟩], []) ∧
    headUpper "F".data = true := by
  constructor
  · decide
  · decide

/-- C3 (amended): a dotted symbol `Recv.Method` in a package's symbol list
is classified as exported iff BOTH the receiver segment and the method
segment start with an upper-case letter (as `TestAffectedComponents`
requires, e.g. `"s.F"` is unexported); the trailing segment alone does not
decide. -/
theorem affectedComponents_dotted (recv method modPath pkgPath : String)
    (hr : '.' ∉ recv.data) (hm : '.' ∉ method.data) :
    AffectedComponents (symEntry modPath pkgPath (recv ++ "." ++ method)) =
      (if (headUpper recv.data && headUpper method.data) = true then
        ([⟨pkgPath, "", [recv ++ "." ++ method], []⟩], [])
      else
        ([⟨pkgPath, "", [], [recv ++ "." ++ method]⟩], [])) := by
  have hs := symbolExported_dotted recv method hr hm
  by_cases hb : (headUpper recv.data && headUpper method.data) = true
  · rw [if_pos hb]
    rw [hb] at hs
    simp [AffectedComponents, symEntry, componentsForAffected, collectRangePairs,
      collectPairsRanges, walkRanges, versionsString, joinComma, exportedBucket,
      unexportedBucket, dedupKeepFirst, List.filter, hs]
  · rw [if_neg hb]
    have hs0 : symbolExported (recv ++ "." ++ method) = false := by
      rw [hs]; exact Bool.eq_false_iff.mpr hb
    simp [AffectedComponents, symEntry, componentsForAffected, collectRangePairs,
      collectPairsRanges, walkRanges, versionsString, joinComma, exportedBucket,
      unexportedBucket, dedupKeepFirst, List.filter, hs0]

/-- C3 witness: the amended theorem at `recv := "s"`, `method := "F"` — the
lower-case receiver forces the unexported bucket. -/
theorem affectedComponents_dotted_witness :
    AffectedComponents (symEntry "example.com/mod" "example.com/mod/pkg" ("s" ++ "." ++ "F")) =
      (if (headUpper "s".data && headUpper "F".data) = true then
        ([⟨"example.com/mod/pkg", "", ["s" ++ "." ++ "F"], []⟩], [])
      else
        ([⟨"example.com/mod/pkg", "", [], ["s" ++ "." ++ "F"]⟩], [])) :=
  affectedComponents_dotted "s" "F" "example.com/mod" "example.com/mod/pkg"
    (by decide) (by decide)

end Vuln

namespace Vuln

/-- C8: range-pair collection walks events in declaration order, pairing
each introduced bound with the next fixed bound; semver-type values get a
leading `v` when non-empty, an empty lower bound stays the empty string
(not `"v0"`), and ranges of an unrecognized type pass through verbatim; the
claim's event sequence yields exactly `[(v1.2, v1.5), (v2.1, v2.3)]`. -/
theorem collectRangePairs_spec :
    (collectRangePairs
      ⟨⟨"github.com/a/b"⟩,
        [⟨osv.RangeTypeSemver, [⟨"", "0.5"⟩]⟩,
         ⟨osv.RangeTypeSemver, [⟨"1.2", ""⟩, ⟨"", "1.5"⟩, ⟨"2.1", "2.3"⟩]⟩,
         ⟨"unspecified", [⟨"a", "b"⟩]⟩], ⟨[]⟩⟩ =
      [⟨"", "v0.5"⟩, ⟨"v1.2", "v1.5"⟩, ⟨"v2.1", "v2.3"⟩, ⟨"a", "b"⟩]) ∧
    (collectRangePairs
      ⟨⟨"github.com/a/b"⟩,
        [⟨osv.RangeTypeSemver, [⟨"1.2", ""⟩, ⟨"", "1.5"⟩, ⟨"2.1", "2.3"⟩]⟩], ⟨[]⟩⟩ =
      [⟨"v1.2", "v1.5"⟩, ⟨"v2.1", "v2.3"⟩]) ∧
    (∀ hi : String, hi ≠ "" → ¬ hi.data.take 1 = ['v'] →
      collectRangePairs ⟨⟨"m"⟩, [⟨osv.RangeTypeSemver, [⟨"", hi⟩]⟩], ⟨[]⟩⟩ =
        [⟨"", "v" ++ hi⟩]) ∧
    (∀ lo hi ty : String, ty ≠ osv.RangeTypeSemver → hi ≠ "" →
      collectRangePairs ⟨⟨"m"⟩, [⟨ty, [⟨lo, hi⟩]⟩], ⟨[]⟩⟩ = [⟨lo, hi⟩]) := by
  refine ⟨by decide, by decide, fun hi h1 h2 => ?_, fun lo hi ty hty hhi => ?_⟩
  · simp only [collectRangePairs, collectPairsRanges, walkRanges, List.foldl,
      walkEvents, withV]
    simp [h1, h2]
  · simp only [collectRangePairs, collectPairsRanges, walkRanges, List.foldl,
      walkEvents]
    have hd : decide (ty = osv.RangeTypeSemver) = false := decide_eq_false hty
    by_cases hlo : lo = ""
    · subst hlo
      simp [hd, hhi]
    · simp [hd, hhi, hlo]

/-- C8 witness: the universal conjuncts at concrete inputs — an empty lower
bound with fix `0.5`, and an `"unspecified"`-type range passed through
verbatim. -/
theorem collectRangePairs_spec_witness :
    collectRangePairs ⟨⟨"m"⟩, [⟨osv.RangeTypeSemver, [⟨"", "0.5"⟩]⟩], ⟨[]⟩⟩ =
      [⟨"", "v" ++ "0.5"⟩] ∧
    collectRangePairs ⟨⟨"m"⟩, [⟨"unspecified", [⟨"a", "b"⟩]⟩], ⟨[]⟩⟩ = [⟨"a", "b"⟩] :=
  ⟨collectRangePairs_spec.2.2.1 "0.5" (by decide) (by decide),
   collectRangePairs_spec.2.2.2 "a" "b" "unspecified" (by decide) (by decide)⟩

/-- C9: for the standard-library pseudo-module, affectation is decided by
toolchain-release ordering, not semver: `go1.19.3` matches a range fixed at
`1.19.4` (under plain semver matching the same string would not match at
all), `go1.20` does not match, and any version that does not parse as a
toolchain release — such as an ordinary pseudo-version — is treated as not
affected rather than erroring. -/
theorem stdlib_toolchain_ordering :
    stdlibAffects stdlibRanges "go1.19.3" = true ∧
    stdlibAffects stdlibRanges "go1.20" = false ∧
    osv.AffectsSemver stdlibRanges "go1.19.3" = false ∧
    goTagToSemver "v0.0.0-20230104211531-bae7d772e800" = none ∧
    (∀ v : String, goTagToSemver v = none → stdlibAffects stdlibRanges v = false) := by
  refine ⟨by decide, by decide, by decide, by decide, fun v h => ?_⟩
  unfold stdlibAffects
  rw [h]

/-- C9 witness: the fail-closed conjunct at the concrete pseudo-version of
`TestVulnsForPackage`. -/
theorem stdlib_toolchain_ordering_witness :
    stdlibAffects stdlibRanges "v0.0.0-20230104211531-bae7d772e800" = false :=
  stdlib_toolchain_ordering.2.2.2.2 "v0.0.0-20230104211531-bae7d772e800" (by decide)

end Vuln

namespace Vuln

/-! ### Order lemma and candidate characterisation for claim C6 -/

theorem natListLt_lt_of_not_lt : ∀ a b c : List Nat,
    natListLt a b = true → natListLt c b = false → natListLt a c = true
  | [], [], _, h1, _ => by cases h1
  | [], _ :: _, [], _, h2 => by cases h2
  | [], _ :: _, _ :: _, _, _ => rfl
  | _ :: _, [], _, h1, _ => by cases h1
  | _ :: _, _ :: _, [], _, h2 => by cases h2
  | a :: as, b :: bs, c :: cs, h1, h2 => by
    simp only [natListLt] at h1 h2 ⊢
    by_cases hcb : c < b
    · rw [if_pos hcb] at h2; cases h2
    · rw [if_neg hcb] at h2
      by_cases hbc : b < c
      · by_cases hab : a < b
        · rw [if_pos (by omega : a < c)]
        · rw [if_neg hab] at h1
          by_cases hba : b < a
          · rw [if_pos hba] at h1; cases h1
          · rw [if_pos (by omega : a < c)]
      · rw [if_neg hbc] at h2
        by_cases hab : a < b
        · rw [if_pos hab] at h1
          rw [if_pos (by omega : a < c)]
        · rw [if_neg hab] at h1
          by_cases hba : b < a
          · rw [if_pos hba] at h1; cases h1
          · rw [if_neg hba] at h1
            rw [if_neg (by omega : ¬ a < c), if_neg (by omega : ¬ c < a)]
            exact natListLt_lt_of_not_lt as bs cs h1 h2

/-- When the scan finds `m`, the candidates are exactly the filtered map of
`m`'s vulns. -/
theorem byPackageCandidates_of_moduleEntry (metas : List ModuleMeta)
    (req : PackageRequest) (m : ModuleMeta)
    (hfind : moduleEntry metas req.Module = some m) :
    Client.byPackageCandidates metas req =
      (m.Vulns.filter
        (fun v => v.Fixed = "" ∨ osv.LessSemver req.Version v.Fixed = true)).map
        (fun v => v.ID) := by
  induction metas with
  | nil => cases hfind
  | cons x rest ih =>
    simp only [moduleEntry] at hfind
    simp only [Client.byPackageCandidates]
    by_cases hx : x.Path = req.Module
    · rw [if_pos hx] at hfind ⊢
      cases hfind
      rfl
    · rw [if_neg hx] at hfind ⊢
      exact ih hfind

/-- C6: with `m` the module's index entry, (1) an ID is a fetch candidate
iff the entry lists it with an empty recorded fixed version or with the
requested version strictly semver-before that fixed version; (2) the
pre-filter never under-selects: whenever the index's recorded fixed version
is consistent with the full record (it bounds every semver interval of the
record's matching groups — "the vuln's highest fixed version"), an entry
that passes the fine-grained `isAffected` filter has its ID among the
candidates. -/
theorem byPackage_coarse_prefilter (metas : List ModuleMeta) (req : PackageRequest)
    (m : ModuleMeta) (hfind : moduleEntry metas req.Module = some m) :
    (∀ id : String, id ∈ Client.byPackageCandidates metas req ↔
      ∃ v ∈ m.Vulns, v.ID = id ∧
        (v.Fixed = "" ∨ osv.LessSemver req.Version v.Fixed = true)) ∧
    (∀ v ∈ m.Vulns, ∀ e : osv.Entry, IndexFixedConsistent e req.Module v.Fixed →
      Client.isAffected e req = true →
      v.ID ∈ Client.byPackageCandidates metas req) := by
  have hc := byPackageCandidates_of_moduleEntry metas req m hfind
  constructor
  · intro id
    rw [hc]
    simp only [List.mem_map, List.mem_filter]
    constructor
    · rintro ⟨v, ⟨hv, hcond⟩, rfl⟩
      exact ⟨v, hv, rfl, of_decide_eq_true hcond⟩
    · rintro ⟨v, hv, rfl, hcond⟩
      exact ⟨v, ⟨hv, decide_eq_true hcond⟩, rfl⟩
  · intro v hv e hcons haff
    have hmem : ∀ (hcond : v.Fixed = "" ∨ osv.LessSemver req.Version v.Fixed = true),
        v.ID ∈ Client.byPackageCandidates metas req := fun hcond => by
      rw [hc]
      exact List.mem_map.mpr ⟨v, List.mem_filter.mpr ⟨hv, decide_eq_true hcond⟩, rfl⟩
    by_cases hfz : v.Fixed = ""
    · exact hmem (Or.inl hfz)
    · unfold Client.isAffected at haff
      obtain ⟨a, ha, hdec⟩ := List.any_eq_true.mp haff
      obtain ⟨⟨hpath, hsem⟩, -⟩ := of_decide_eq_true hdec
      unfold osv.AffectsSemver at hsem
      obtain ⟨p, hp, hcont⟩ := List.any_eq_true.mp hsem
      have hcont' := of_decide_eq_true hcont
      obtain ⟨hpf, hle⟩ := hcons hfz a ha hpath p hp
      rcases hcont'.2 with hfe | hlt
      · exact absurd hfe hpf
      · refine hmem (Or.inr ?_)
        exact natListLt_lt_of_not_lt (semKey req.Version) (semKey p.fixed)
          (semKey v.Fixed) hlt hle

/-- C6 witness: the theorem at the test module index — `GO-1999-0001`
(fixed at `1.2.3`, requested version `v1.0.0`) is a candidate under
`bad.com`, both via the characterisation and via the completeness part
applied to `entry1`. -/
theorem byPackage_coarse_prefilter_witness :
    "GO-1999-0001" ∈ Client.byPackageCandidates
      [⟨"bad.com", [⟨"GO-1999-0001", "1.2.3"⟩, ⟨"GO-1999-0002", "1.2.0"⟩]⟩,
       ⟨"unfixable.com", [⟨"GO-1999-0001", ""⟩]⟩] ⟨"bad.com", "bad.com", "v1.0.0"⟩ :=
  (byPackage_coarse_prefilter
      [⟨"bad.com", [⟨"GO-1999-0001", "1.2.3"⟩, ⟨"GO-1999-0002", "1.2.0"⟩]⟩,
       ⟨"unfixable.com", [⟨"GO-1999-0001", ""⟩]⟩]
      ⟨"bad.com", "bad.com", "v1.0.0"⟩
      ⟨"bad.com", [⟨"GO-1999-0001", "1.2.3"⟩, ⟨"GO-1999-0002", "1.2.0"⟩]⟩ rfl).2
    ⟨"GO-1999-0001", "1.2.3"⟩ (by decide) entry1 (by decide) (by decide)

end Vuln

namespace Vuln

/-! ### Model validation against the tests under `src/`

The embedding reproduces, end to end, the behaviour `vulns_test.go` pins on
the real implementation.
-/

/-- The `TestVulnsForPackage` scenarios for `bad.com` / `unfixable.com`,
replayed through `ByPackage` against the in-memory source. -/
theorem model_matches_byPackage_tests :
    Client.ByPackage testSource ⟨"bad.com", "bad.com", "v1.0.0"⟩ = .ok [entry1] ∧
    Client.ByPackage testSource ⟨"bad.com", "bad.com/bad", "v1.0.0"⟩ = .ok [entry1] ∧
    Client.ByPackage testSource ⟨"bad.com", "bad.com/ok", "v1.0.0"⟩ = .ok [] ∧
    Client.ByPackage testSource ⟨"bad.com", "bad.com", "v1.3.0"⟩ = .ok [] ∧
    Client.ByPackage testSource ⟨"unfixable.com", "unfixable.com", "v1.999.999"⟩ =
      .ok [entry1] ∧
    Client.ByPackage testSource ⟨"bad.com", "", "v1.0.0"⟩ = .ok [entry1, entry2] ∧
    Client.ByPackage testSource ⟨"bad.com", "", "v1.3.0"⟩ = .ok [] ∧
    Client.ByPackage testSource ⟨"good.com", "good.com", "v1.0.0"⟩ = .ok [] := by
  refine ⟨?_, ?_, ?_, ?_, ?_, ?_, ?_, ?_⟩ <;> decide

/-- The full `TestCollectRangePairs` vector. -/
theorem model_matches_collectRangePairs_test :
    collectRangePairs
      ⟨⟨"github.com/a/b"⟩,
        [⟨osv.RangeTypeSemver, [⟨"", "0.5"⟩]⟩,
         ⟨osv.RangeTypeSemver, [⟨"1.2", ""⟩, ⟨"", "1.5"⟩, ⟨"2.1", "2.3"⟩]⟩,
         ⟨"unspecified", [⟨"a", "b"⟩]⟩], ⟨[]⟩⟩ =
      [⟨"", "v0.5"⟩, ⟨"v1.2", "v1.5"⟩, ⟨"v2.1", "v2.3"⟩, ⟨"a", "b"⟩] := by
  decide

/-- The `TestAffectedComponents` cases "multiple symbols" and "multiple
pkgs and modules", and the `TestAffectedComponents_Versions` rendering. -/
theorem model_matches_affectedComponents_tests :
    AffectedComponents
      ⟨"GO-2022-0002",
        [⟨⟨"example.com/mod"⟩, [],
          ⟨[⟨"example.com/mod/pkg", ["F", "g", "S.f", "S.F", "s.F", "s.f"]⟩]⟩⟩]⟩ =
      ([⟨"example.com/mod/pkg", "", ["F", "S.F"], ["g", "S.f", "s.F", "s.f"]⟩], []) ∧
    AffectedComponents
      ⟨"GO-2022-0004",
        [⟨⟨"example.com/mod"⟩, [⟨osv.RangeTypeSemver, [⟨"", "1.5"⟩]⟩], ⟨[]⟩⟩,
         ⟨⟨"example.com/mod1"⟩, [],
           ⟨[⟨"example.com/mod1/pkg1", []⟩, ⟨"example.com/mod1/pkg2", ["F"]⟩]⟩⟩,
         ⟨⟨"example.com/mod2"⟩, [], ⟨[⟨"example.com/mod2/pkg3", ["g", "H"]⟩]⟩⟩]⟩ =
      ([⟨"example.com/mod1/pkg1", "", [], []⟩,
        ⟨"example.com/mod1/pkg2", "", ["F"], []⟩,
        ⟨"example.com/mod2/pkg3", "", ["H"], ["g"]⟩],
       [⟨"example.com/mod", "before v1.5", [], []⟩]) ∧
    versionsString (collectPairsRanges
      [⟨osv.RangeTypeSemver, [⟨"1.5", "1.10"⟩, ⟨"", "2.3"⟩]⟩]) =
      "from v1.5 before v1.10, before v2.3" := by
  refine ⟨?_, ?_, ?_⟩ <;> decide

end Vuln
